import Mathlib

/-!
Shallow embedding of two erda-ui presentation components, translated from the
TypeScript source: the project-iteration list view and the contractive
filter bar.  JavaScript objects become association lists or records,
`undefined` becomes `Option.none`, JS number arithmetic on counts becomes
exact arithmetic over `Nat`/`ℚ`, and every event handler becomes a pure
function from its inputs to the state update and the emission it performs.
-/

namespace ErdaUI

/-! ### Iteration list view -/

/-- Lifecycle tab values of the iteration view radio tabs:
`'unarchive'` (In Progress) and `'archived'`. -/
inductive IterStatus where
  | unarchive
  | archived
deriving DecidableEq, Repr

/-- The `iterationStateMap` lookup inside the `query` memo:
`archived ↦ 'FILED'`, `unarchive ↦ 'UNFILED'`. -/
def iterationStateMap : IterStatus → String
  | .archived => "FILED"
  | .unarchive => "UNFILED"

/-- A list-fetch request as assembled by `getList`:
`getIterations({ ...query, ...q, projectID: +projectId })`. -/
structure FetchReq where
  state : String
  pageNo : Nat
  pageSize : Option Nat
  projectID : Int
deriving DecidableEq, Repr

/-- The optional override object `q` passed to `getList` by callers
(`{}`, `{ pageNo: 1 }`, or `{ pageNo, pageSize }`). -/
structure QOverride where
  pageNo : Option Nat
  pageSize : Option Nat
deriving DecidableEq, Repr

/-- `getList(q)`: spreads the memoised `query` (`state` from the lifecycle
tab, `pageNo: 1`), then the overrides `q`, then `projectID`. -/
def getListReq (status : IterStatus) (projectId : Int) (q : QOverride) : FetchReq :=
  { state := iterationStateMap status
    pageNo := q.pageNo.getD 1
    pageSize := q.pageSize
    projectID := projectId }

/-- The fetch fired by the effect when the lifecycle tab changes:
`getList()` with no overrides. -/
def tabSwitchFetch (status : IterStatus) (projectId : Int) : FetchReq :=
  getListReq status projectId ⟨none, none⟩

/-- One value of the `record.issueSummary` object: per-category
done/undone issue counts. -/
structure IssueCat where
  done : Nat
  undone : Nat
deriving DecidableEq, Repr

/-- Rounding of a nonnegative JS number to one decimal place, the effect of
`+x.toFixed(1)` under exact (rational) arithmetic. -/
def toFixed1 (q : ℚ) : ℚ := (Int.floor (q * 10 + 1 / 2) : ℚ) / 10

/-- `doneTotal = sumBy(map(record.issueSummary || {}), 'done') || 0`. -/
def doneTotal (s : List IssueCat) : Nat := (s.map IssueCat.done).sum

/-- The undone part of `totalCount`:
`sumBy(map(record.issueSummary || {}), 'undone') || 0`. -/
def undoneSum (s : List IssueCat) : Nat := (s.map IssueCat.undone).sum

/-- `totalCount`: undone sum plus `doneTotal`. -/
def totalCount (s : List IssueCat) : Nat := undoneSum s + doneTotal s

/-- The percent given to the `Progress` widget:
`+(((totalCount ? doneTotal / totalCount : 0) * 100).toFixed(1))`. -/
def progressPercent (s : List IssueCat) : ℚ :=
  toFixed1 ((if totalCount s ≠ 0 then (doneTotal s : ℚ) / (totalCount s : ℚ) else 0) * 100)

/-- Written from the spec's words: 100 times the sum of per-category done
counts divided by the sum of per-category done plus undone counts, rounded
to one decimal place, and 0 when both sums are zero. -/
def specProgressPercent (s : List IssueCat) : ℚ :=
  if (s.map IssueCat.done).sum = 0 ∧ (s.map (fun c => (c.done + c.undone : ℕ))).sum = 0 then 0
  else toFixed1 (100 * ((s.map IssueCat.done).sum : ℚ) /
    ((s.map (fun c => (c.done + c.undone : ℕ))).sum : ℚ))

/-- The two permission checks gating row actions:
`operationAuth` and `handleFiledAuth` from `usePerm`. -/
inductive PermGate where
  | operation
  | handleFiled
deriving DecidableEq, Repr

/-- What a row action's `onClick` does. -/
inductive RowEffect where
  | filed (state : String)
  | openEdit
  | confirmThenDelete
deriving DecidableEq, Repr

/-- One entry of the table's row-action menu: its label, the permission
check wrapped around the label, whether a confirmation dialog guards the
click, and the effect that runs. -/
structure RowAction where
  title : String
  gate : PermGate
  needsConfirm : Bool
  effect : RowEffect
deriving DecidableEq, Repr

/-- `actions.render(record)`: the branch on `record.state === 'FILED'`. -/
def actionsFor (state : String) : List RowAction :=
  if state = "FILED" then
    [⟨"Unarchive", .handleFiled, false, .filed "UNFILED"⟩]
  else
    [⟨"Edit", .operation, false, .openEdit⟩,
     ⟨"Archive", .handleFiled, false, .filed "FILED"⟩,
     ⟨"Delete", .operation, true, .confirmThenDelete⟩]

/-- An iteration record, restricted to the fields the view reads. -/
structure IterationDetail where
  id : Nat
  startedAt : String
  finishedAt : String
  title : String
  content : String
  state : String
  issueSummary : List IssueCat
deriving DecidableEq, Repr

/-- The object handed to the `editIteration` (update-by-id) effect. -/
structure UpdatePayload where
  id : Nat
  startedAt : String
  finishedAt : String
  title : String
  content : String
  state : String
deriving DecidableEq, Repr

/-- `onFiled(record, operation)`: destructures the record, calls the
update effect with `state: operation`, then (after it resolves) fetches
`getList({ pageNo: 1 })`. Returned as the payload–followup pair in
execution order. -/
def onFiled (status : IterStatus) (projectId : Int) (record : IterationDetail)
    (operation : String) : UpdatePayload × FetchReq :=
  (⟨record.id, record.startedAt, record.finishedAt, record.title, record.content, operation⟩,
   getListReq status projectId ⟨some 1, none⟩)

/-! ### Contractive filter bar: option search -/

/-- A child entry of a grouped select option (only its label and value are
read by the option search). -/
structure ChildOpt where
  label : String
  value : Int
deriving DecidableEq, Repr

/-- A select option.  The `children` field is doubly optional: the outer
level is whether the object has a `children` key at all (what
`has(item, 'children')` tests), the inner level whether the stored value
is defined. -/
structure SelOption where
  label : String
  value : Int
  children : Option (Option (List ChildOpt))
deriving DecidableEq, Repr

/-- Containment of one character list in another (`String.includes`). -/
def hasSubList (needle : List Char) : List Char → Bool
  | [] => needle.isEmpty
  | c :: rest => needle.isPrefixOf (c :: rest) || hasSubList needle rest

/-- Case-insensitive containment test
`v.toLowerCase().includes(f.toLowerCase())`, over the character lists. -/
def filterMatch (v f : String) : Bool :=
  hasSubList (f.data.map Char.toLower) (v.data.map Char.toLower)

/-- The `forEach`/`push` loop body of `getSelectOptions`, as structural
recursion appending at most one option per item: an item with a `children`
key is pushed with its children narrowed to the label matches, and only
when at least one child matched; a plain item is pushed when its own label
matches. -/
def getSelectOptionsGo (filterKey : String) : List SelOption → List SelOption
  | [] => []
  | item :: rest =>
    match item.children with
    | some cs =>
      let kids := (cs.getD []).filter (fun c => filterMatch c.label filterKey)
      if kids.length ≠ 0 then
        { item with children := some (some kids) } :: getSelectOptionsGo filterKey rest
      else getSelectOptionsGo filterKey rest
    | none =>
      if filterMatch item.label filterKey then item :: getSelectOptionsGo filterKey rest
      else getSelectOptionsGo filterKey rest

/-- `getSelectOptions(options, filterKey)`: a falsy (empty) filter key
returns the options unchanged, otherwise the search loop runs. -/
def getSelectOptions (options : List SelOption) (filterKey : String) : List SelOption :=
  if filterKey = "" then options else getSelectOptionsGo filterKey options

/-- Written from the spec's words: exactly the options whose label contains
the search string case-insensitively; an option with a children field is
kept iff at least one child label matches and is returned with its
children narrowed to the matching ones; the empty search string returns
the input list unchanged. -/
def specSelectOptions (options : List SelOption) (filterKey : String) : List SelOption :=
  if filterKey = "" then options
  else
    options.filterMap (fun item =>
      match item.children with
      | some cs =>
        let kids := (cs.getD []).filter (fun c => filterMatch c.label filterKey)
        if kids = [] then none else some { item with children := some (some kids) }
      | none => if filterMatch item.label filterKey then some item else none)

/-! ### Contractive filter bar: select item rendering -/

/-- Initial `hasMore` state of a select item:
`itemData.firstShowLength ? (options?.length || 0) > firstShowLength : false`.
`none` models an unset prop; a set `0` is falsy in JS. -/
def selInitHasMore (firstShowLength : Option Nat) (optionsLen : Nat) : Bool :=
  match firstShowLength with
  | some n => if n ≠ 0 then decide (optionsLen > n) else false
  | none => false

/-- The destructuring default `firstShowLength = 200`. -/
def effFirstShowLength (firstShowLength : Option Nat) : Nat := firstShowLength.getD 200

/-- `useOptions = hasMore ? filterOptions?.slice(0, firstShowLength) : filterOptions`. -/
def selUseOptions (hasMore : Bool) (firstShowLength : Option Nat)
    (filterOptions : List SelOption) : List SelOption :=
  if hasMore then filterOptions.take (effFirstShowLength firstShowLength) else filterOptions

/-- The 'load more' control is rendered exactly when `hasMore` holds. -/
def loadMoreShown (hasMore : Bool) : Bool := hasMore

/-- Clicking 'load more' runs `setHasMore(false)`. -/
def clickLoadMore (_hasMore : Bool) : Bool := false

/-! ### Contractive filter bar: option clicks and the clear actions -/

/-- Emission of `onClickOptItem`: nothing (an early return), a single-mode
scalar value (possibly `undefined`), or a multi-mode list. -/
inductive ClickEmission (α : Type) where
  | silent
  | single (v : Option α)
  | multi (vs : List α)
deriving DecidableEq, Repr

/-- `onClickOptItem(_curOpt)` of the select dropdown, acting on the
normalised selected values `_value`. -/
def onClickOptItem {α : Type} [DecidableEq α] (isSingleMode required : Bool)
    (value : List α) (cur : α) : ClickEmission α :=
  if isSingleMode then
    if required ∧ cur ∈ value then .silent
    else .single (if cur ∈ value then none else some cur)
  else
    let newVal := if cur ∈ value then value.filter (fun v => v ≠ cur) else value ++ [cur]
    if required ∧ newVal = [] then .silent
    else .multi newVal

/-- Whether the per-condition 'Clear selected' link is rendered in the
select dropdown menu: only outside single mode, and only when the
condition is not required. -/
def clearSelectedLinkShown (isSingleMode required : Bool) : Bool :=
  !isSingleMode && !required

/-- A JS object used as a value map: an association list with keys in
insertion order; a stored `none` is a key explicitly set to `undefined`. -/
abbrev ValueMap (α : Type) : Type := List (String × Option α)

/-- Property read `m[k]`; an absent key and a key set to `undefined` both
read back `undefined`. -/
def objGet {α : Type} (m : ValueMap α) (k : String) : Option α :=
  match List.find? (fun p => p.1 == k) m with
  | some p => p.2
  | none => none

/-- The spread-update `{ ...m, [k]: v }`: overwrite an existing key in
place, otherwise append the new key. -/
def objSet {α : Type} (m : ValueMap α) (k : String) (v : Option α) : ValueMap α :=
  if List.any m (fun p => p.1 == k) then
    List.map (fun p => if p.1 == k then (k, v) else p) m
  else m ++ [(k, v)]

/-- The spread-merge `{ ...a, ...b }`: keys of `a` in order with values
overridden by `b`, then the keys only in `b`. -/
def objMerge {α : Type} (a b : ValueMap α) : ValueMap α :=
  List.map (fun p =>
    match List.find? (fun q => q.1 == p.1) b with
    | some q => (p.1, q.2)
    | none => p) a ++
  List.filter (fun q => !(List.any a (fun p => p.1 == q.1))) b

/-- Which call path notified the upstream `onChange`. -/
inductive Channel where
  | debounced (delay : Nat)
  | immediate
deriving DecidableEq, Repr

/-- One upstream notification: the value map passed, the changed key
argument, and the call path taken. -/
structure ChangeEmission (α : Type) where
  payload : ValueMap α
  changedKey : Option String
  channel : Channel

/-- The first argument of `handelItemChange`: a single `{ key, value }`
pair, or a whole object under `batchChange`. -/
inductive ItemChangeArg (α : Type) where
  | single (key : String) (value : Option α)
  | batch (m : ValueMap α)

/-- `handelItemChange(newValueMap, extra)`: merge the change into the value
map, then notify upstream — through the debounced instance (built with the
bar's `delay`) when `delay` is truthy and `forceChange` is not set,
synchronously otherwise. -/
def handelItemChange {α : Type} (delay : Nat) (current : ValueMap α)
    (arg : ItemChangeArg α) (forceChange : Bool) : ValueMap α × ChangeEmission α :=
  let cur := match arg with
    | .single k v => objSet current k v
    | .batch m => objMerge current m
  let ck := match arg with
    | .single k _ => some k
    | .batch _ => none
  let ch := if delay ≠ 0 ∧ forceChange = false then Channel.debounced delay else Channel.immediate
  (cur, ⟨cur, ck, ch⟩)

/-- Condition type tags of the filter bar. -/
inductive ConditionType where
  | select
  | input
  | dateRange
  | rangePicker
  | memberSelector
  | timespanRange
deriving DecidableEq, Repr

/-- A condition descriptor, restricted to the fields the clear actions
read.  `fixed` is an optional boolean prop. -/
structure CFCondition where
  key : String
  ctype : ConditionType
  fixed : Option Bool
  required : Bool
deriving DecidableEq, Repr

/-- The guard
`pItem.fixed || (pItem.type === 'input' && pItem.fixed !== false)`
protecting a condition from the global clear. -/
def condProtected (c : CFCondition) : Bool :=
  c.fixed == some true || (c.ctype == ConditionType.input && c.fixed != some false)

/-- Decimal parse of a character list (the numeric reading of a JS
property key). -/
def parseIndex (cs : List Char) : Option Nat :=
  if cs ≠ [] ∧ cs.all (fun c => c.isDigit) then
    some (cs.foldl (fun n c => n * 10 + (c.toNat - Char.toNat '0')) 0)
  else none

/-- JS array access `arr[k]` with a string subscript: an element only when
`k` is the canonical decimal form of an index in range, `undefined`
otherwise. -/
def jsArrayGetStr (l : List CFCondition) (k : String) : Option CFCondition :=
  match parseIndex k.data with
  | some i => if Nat.toDigits 10 i = k.data then l.get? i else none
  | none => none

/-- One entry of the `newValueMap` built by `handleClearSelected`: the old
value when `conditions[_k] || {}` passes the protection guard (the `{}`
fallback never does), otherwise `initValue?.[_k] ?? undefined`. -/
def clearEntry {α : Type} (conditions : List CFCondition) (initValue : ValueMap α)
    (k : String) (v : Option α) : Option α :=
  let isProt := match jsArrayGetStr conditions k with
    | some c => condProtected c
    | none => false
  if isProt then v else objGet initValue k

/-- The `newValueMap` built by `handleClearSelected` over the keys of the
current value map. -/
def clearSelectedMap {α : Type} (conditions : List CFCondition) (initValue : ValueMap α)
    (valueMap : ValueMap α) : ValueMap α :=
  List.map (fun p => (p.1, clearEntry conditions initValue p.1 p.2)) valueMap

/-- The value path of `handleClearSelected`: build `newValueMap`, then call
`handelItemChange(newValueMap, { batchChange: true })`. -/
def handleClearSelected {α : Type} (delay : Nat) (conditions : List CFCondition)
    (initValue : ValueMap α) (valueMap : ValueMap α) : ValueMap α × ChangeEmission α :=
  handelItemChange delay valueMap (.batch (clearSelectedMap conditions initValue valueMap)) false

/-! ### Contractive filter bar: duration range and quick add -/

/-- Outcome of the `Duration` onChange in `TimeSpanFilterItem`. -/
inductive TimeSpanOutcome (β : Type) where
  | emit (v : List β)
  | toast
  | silent
deriving DecidableEq, Repr

/-- The `Duration` onChange handler of `TimeSpanFilterItem`.
`transformDuration` lives outside this fragment, so it is abstracted as
the argument `td` (applied to `v?.[0]` and `v?.[1]`); `none` stands for a
non-number result of the transform. -/
def timeSpanOnChange {β : Type} (td : Option β → Option Int) (v : List β) : TimeSpanOutcome β :=
  let durationMin := td (v.get? 0)
  let durationMax := td (v.get? 1)
  match durationMin, durationMax with
  | some a, some b => if a ≤ b then .emit v else .toast
  | none, none => .emit []
  | _, _ => .silent

/-- State of the `QuickSave` control: the input value `v` and the tip. -/
structure QuickSaveState where
  v : String
  tip : String
deriving DecidableEq, Repr

/-- The tip recomputed by the update effect whenever `v` changes (i18n
template texts taken verbatim). -/
def computeTip (labels : List String) (v : String) : String :=
  if v = "" then "can not be empty"
  else if v ∈ labels then "{name} already exists"
  else ""

/-- Initial `QuickSave` state: empty input and the 'can not be empty' tip. -/
def qsInit : QuickSaveState := ⟨"", "can not be empty"⟩

/-- Events the `QuickSave` control reacts to. -/
inductive QSEvent where
  | typeInput (s : String)
  | clickSave
deriving DecidableEq, Repr

/-- One step of the `QuickSave` control: typing stores the text and the
effect recomputes the tip; the save click runs `!tip && onSave(v)` and then
`setV('')` (after which the tip is recomputed for the empty input).  The
second component is the `onSave` emission. -/
def qsStep (labels : List String) (st : QuickSaveState) :
    QSEvent → QuickSaveState × Option String
  | .typeInput s => (⟨s, computeTip labels s⟩, none)
  | .clickSave => (⟨"", computeTip labels ""⟩, if st.tip = "" then some st.v else none)

/-! ### Helper lemmas about the JS-object model -/

theorem objGet_cons {α : Type} (q : String × Option α) (t : ValueMap α) (k : String) :
    objGet (q :: t) k = if q.1 == k then q.2 else objGet t k := by
  by_cases hq : q.1 == k <;> simp [objGet, List.find?_cons, hq]

theorem objSet_cons {α : Type} (q : String × Option α) (t : ValueMap α) (k : String)
    (v : Option α) :
    objSet (q :: t) k v =
      if q.1 == k then (k, v) :: List.map (fun p => if p.1 == k then (k, v) else p) t
      else q :: objSet t k v := by
  by_cases hq : q.1 == k
  · simp [objSet, List.any_cons, hq]
    intro hcontra
    exact absurd (by simpa using hq) hcontra
  · by_cases ht : List.any t (fun p => p.1 == k)
    · simp [objSet, List.any_cons, hq, ht]
      intro hcontra
      exact absurd hcontra (by simpa using hq)
    · simp [objSet, List.any_cons, hq, ht]

theorem objGet_objSet_same {α : Type} (m : ValueMap α) (k : String) (v : Option α) :
    objGet (objSet m k v) k = v := by
  induction m with
  | nil => simp [objGet, objSet]
  | cons q t ih =>
    rw [objSet_cons]
    by_cases hq : q.1 == k
    · rw [if_pos hq, objGet_cons]
      simp
    · rw [if_neg hq, objGet_cons, if_neg hq]
      exact ih

theorem objGet_map_set_ne {α : Type} (t : ValueMap α) (k k' : String) (v : Option α)
    (h : k' ≠ k) :
    objGet (List.map (fun p => if p.1 == k then (k, v) else p) t) k' = objGet t k' := by
  induction t with
  | nil => rfl
  | cons p t ih =>
    rw [List.map_cons, objGet_cons, objGet_cons]
    by_cases hp : p.1 == k
    · have h1 : ((if p.1 == k then (k, v) else p) : String × Option α).1 = k := by
        rw [if_pos hp]
      have h2 : (((if p.1 == k then (k, v) else p) : String × Option α).1 == k') = false := by
        rw [h1]
        exact beq_eq_false_iff_ne.2 (Ne.symm h)
      have h3 : (p.1 == k') = false := by
        have : p.1 = k := by simpa using hp
        rw [this]
        exact beq_eq_false_iff_ne.2 (Ne.symm h)
      rw [h2, h3]
      simp only [Bool.false_eq_true, if_false]
      exact ih
    · have h1 : ((if p.1 == k then (k, v) else p) : String × Option α) = p := by
        rw [if_neg hp]
      rw [h1]
      by_cases hp' : p.1 == k'
      · rw [if_pos hp', if_pos hp']
      · rw [if_neg hp', if_neg hp']
        exact ih

theorem objGet_objSet_other {α : Type} (m : ValueMap α) (k k' : String) (v : Option α)
    (h : k' ≠ k) : objGet (objSet m k v) k' = objGet m k' := by
  induction m with
  | nil =>
    have hkk' : (k == k') = false := beq_eq_false_iff_ne.2 (Ne.symm h)
    simp [objGet, objSet, hkk']
  | cons q t ih =>
    rw [objSet_cons]
    by_cases hq : q.1 == k
    · rw [if_pos hq, objGet_cons, objGet_cons]
      have h2 : ((k : String) == k') = false := beq_eq_false_iff_ne.2 (Ne.symm h)
      have h3 : (q.1 == k') = false := by
        have : q.1 = k := by simpa using hq
        rw [this]
        exact beq_eq_false_iff_ne.2 (Ne.symm h)
      rw [show (((k, v) : String × Option α).1 == k') = false from h2, h3]
      simp only [Bool.false_eq_true, if_false]
      exact objGet_map_set_ne t k k' v h
    · rw [if_neg hq, objGet_cons, objGet_cons]
      by_cases hq' : q.1 == k'
      · rw [if_pos hq', if_pos hq']
      · rw [if_neg hq', if_neg hq']
        exact ih

theorem objSet_mem_key {α : Type} (m : ValueMap α) (k : String) (v : Option α) :
    List.any (objSet m k v) (fun p => p.1 == k) = true := by
  induction m with
  | nil => simp [objSet]
  | cons q t ih =>
    rw [objSet_cons]
    by_cases hq : q.1 == k
    · rw [if_pos hq]
      simp [List.any_cons]
    · rw [if_neg hq]
      rw [List.any_cons, ih]
      simp

theorem find?_map_entries {α : Type} (f : String → Option α → Option α) (m : ValueMap α)
    (k : String) :
    List.find? (fun p => p.1 == k) (List.map (fun p => (p.1, f p.1 p.2)) m) =
      Option.map (fun p => (p.1, f p.1 p.2)) (List.find? (fun p => p.1 == k) m) := by
  induction m with
  | nil => simp
  | cons q t ih =>
    rw [List.map_cons, List.find?_cons, List.find?_cons]
    by_cases hq : q.1 == k
    · rw [show (((q.1, f q.1 q.2) : String × Option α).1 == k) = true from hq]
      rfl
    · rw [show (((q.1, f q.1 q.2) : String × Option α).1 == k) = false from
        Bool.eq_false_iff.2 hq]
      exact ih

theorem find?_self_of_nodup {α : Type} (m : ValueMap α) (p : String × Option α)
    (hN : (m.map Prod.fst).Nodup) (hp : p ∈ m) :
    List.find? (fun q => q.1 == p.1) m = some p := by
  induction m with
  | nil => cases hp
  | cons a t ih =>
    rcases List.mem_cons.1 hp with h | h
    · subst h
      simp [List.find?_cons]
    · have ha : a.1 ≠ p.1 := by
        intro he
        have : a.1 ∈ t.map Prod.fst := he ▸ List.mem_map_of_mem Prod.fst h
        exact (List.nodup_cons.1 hN).1 this
      have ha' : (a.1 == p.1) = false := beq_eq_false_iff_ne.2 ha
      rw [List.find?_cons, ha']
      exact ih (List.nodup_cons.1 hN).2 h

theorem objMerge_self_map {α : Type} (f : String → Option α → Option α) (m : ValueMap α)
    (hN : (m.map Prod.fst).Nodup) :
    objMerge m (List.map (fun p => (p.1, f p.1 p.2)) m) =
      List.map (fun p => (p.1, f p.1 p.2)) m := by
  unfold objMerge
  have h1 : List.map (fun p =>
      match List.find? (fun q => q.1 == p.1) (List.map (fun p => (p.1, f p.1 p.2)) m) with
      | some q => (p.1, q.2)
      | none => p) m = List.map (fun p => (p.1, f p.1 p.2)) m := by
    apply List.map_congr_left
    intro p hp
    rw [find?_map_entries, find?_self_of_nodup m p hN hp]
    rfl
  have h2 : List.filter (fun q => !(List.any m (fun p => p.1 == q.1)))
      (List.map (fun p => (p.1, f p.1 p.2)) m) = [] := by
    rw [List.filter_eq_nil_iff]
    intro q hq
    rcases List.mem_map.1 hq with ⟨p, hp, rfl⟩
    simp only [Bool.not_eq_true', Bool.not_eq_false]
    exact List.any_eq_true.2 ⟨p, hp, by simp⟩
  rw [h1, h2, List.append_nil]

/-! ### Claims about the iteration view -/

/-- C5: selecting a lifecycle tab of the iteration view triggers a fresh
fetch whose state filter maps `archived` to `FILED` and `unarchive` to
`UNFILED`, with `pageNo` reset to 1 and the current project id. -/
theorem c5_tab_switch_fetch (status : IterStatus) (projectId : Int) :
    (tabSwitchFetch status projectId).state = iterationStateMap status ∧
    (tabSwitchFetch status projectId).pageNo = 1 ∧
    (tabSwitchFetch status projectId).projectID = projectId ∧
    iterationStateMap IterStatus.archived = "FILED" ∧
    iterationStateMap IterStatus.unarchive = "UNFILED" := by
  cases status <;>
    exact ⟨rfl, rfl, rfl, rfl, rfl⟩

theorem sum_map_done_add_undone (s : List IssueCat) :
    (s.map (fun c => (c.done + c.undone : ℕ))).sum =
      (s.map IssueCat.done).sum + (s.map IssueCat.undone).sum := by
  induction s with
  | nil => rfl
  | cons c t ih =>
    simp only [List.map_cons, List.sum_cons, ih]
    omega

theorem toFixed1_zero : toFixed1 0 = 0 := by
  have h0 : Int.floor ((0 : ℚ) * 10 + 1 / 2) = 0 := by
    rw [Int.floor_eq_zero_iff]
    constructor <;> norm_num
  unfold toFixed1
  rw [h0]
  norm_num

/-- C6: the progress column's percent equals 100 times the sum of
per-category done counts divided by the sum of per-category done plus
undone counts, rounded to one decimal place, and equals 0 when both sums
are zero. -/
theorem c6_progress_percent (s : List IssueCat) :
    progressPercent s = specProgressPercent s := by
  have hsum := sum_map_done_add_undone s
  unfold progressPercent specProgressPercent
  by_cases h : totalCount s = 0
  · have hdu : undoneSum s + doneTotal s = 0 := by
      unfold totalCount at h
      exact h
    have hd : (s.map IssueCat.done).sum = 0 := by
      unfold undoneSum doneTotal at hdu
      omega
    have hboth : (s.map (fun c => (c.done + c.undone : ℕ))).sum = 0 := by
      unfold undoneSum doneTotal at hdu
      omega
    rw [if_neg (show ¬totalCount s ≠ 0 from fun hn => hn h), zero_mul, toFixed1_zero,
      if_pos ⟨hd, hboth⟩]
  · have hdu : undoneSum s + doneTotal s ≠ 0 := by
      unfold totalCount at h
      exact h
    have hboth : ¬((s.map IssueCat.done).sum = 0 ∧
        (s.map (fun c => (c.done + c.undone : ℕ))).sum = 0) := by
      rintro ⟨h1, h2⟩
      unfold undoneSum doneTotal at hdu
      omega
    rw [if_pos h, if_neg hboth]
    unfold toFixed1 totalCount undoneSum doneTotal
    rw [hsum]
    congr 1
    push_cast
    ring_nf

/-- C7: a record with state `FILED` gets exactly one row action
(Unarchive, gated by the handle-filed permission); any other record gets
exactly three (Edit and Delete gated by the operation permission, Archive
gated by the handle-filed permission), with only Delete guarded by a
confirmation dialog. -/
theorem c7_row_actions (s : String) (h : s ≠ "FILED") :
    actionsFor "FILED" =
      [⟨"Unarchive", PermGate.handleFiled, false, RowEffect.filed "UNFILED"⟩] ∧
    actionsFor s =
      [⟨"Edit", PermGate.operation, false, RowEffect.openEdit⟩,
       ⟨"Archive", PermGate.handleFiled, false, RowEffect.filed "FILED"⟩,
       ⟨"Delete", PermGate.operation, true, RowEffect.confirmThenDelete⟩] := by
  constructor
  · rfl
  · unfold actionsFor
    rw [if_neg h]

theorem c7_row_actions_witness :
    ("UNFILED" : String) ≠ "FILED" ∧
    (actionsFor "FILED" =
      [⟨"Unarchive", PermGate.handleFiled, false, RowEffect.filed "UNFILED"⟩] ∧
    actionsFor "UNFILED" =
      [⟨"Edit", PermGate.operation, false, RowEffect.openEdit⟩,
       ⟨"Archive", PermGate.handleFiled, false, RowEffect.filed "FILED"⟩,
       ⟨"Delete", PermGate.operation, true, RowEffect.confirmThenDelete⟩]) :=
  ⟨by decide, c7_row_actions "UNFILED" (by decide)⟩

/-- C8: an archive or unarchive action calls the update-by-id effect with
the record's id, startedAt, finishedAt, title and content unchanged and
only the state set to the requested transition value, and afterwards the
list is refetched at page 1. -/
theorem c8_onFiled_payload (status : IterStatus) (projectId : Int)
    (record : IterationDetail) (operation : String) :
    (onFiled status projectId record operation).1.id = record.id ∧
    (onFiled status projectId record operation).1.startedAt = record.startedAt ∧
    (onFiled status projectId record operation).1.finishedAt = record.finishedAt ∧
    (onFiled status projectId record operation).1.title = record.title ∧
    (onFiled status projectId record operation).1.content = record.content ∧
    (onFiled status projectId record operation).1.state = operation ∧
    (onFiled status projectId record operation).2 =
      getListReq status projectId ⟨some 1, none⟩ ∧
    (onFiled status projectId record operation).2.pageNo = 1 :=
  ⟨rfl, rfl, rfl, rfl, rfl, rfl, rfl, rfl⟩

/-! ### Claims about the filter bar change pipeline -/

/-- C2: a filter item's value change updates the value map with the new
key/value pair and notifies the upstream onChange with the merged map and
the changed key — through the debounced instance built with the bar's
delay when the delay is non-zero and the change does not carry
forceChange, synchronously when the delay is zero or forceChange is set. -/
theorem c2_item_change_emission {α : Type} (delay : Nat) (current : ValueMap α)
    (key : String) (value : Option α) (forceChange : Bool) (k' : String) (h : k' ≠ key) :
    (handelItemChange delay current (.single key value) forceChange).1 =
      objSet current key value ∧
    objGet (handelItemChange delay current (.single key value) forceChange).1 key = value ∧
    List.any (handelItemChange delay current (.single key value) forceChange).1
      (fun p => p.1 == key) = true ∧
    objGet (handelItemChange delay current (.single key value) forceChange).1 k' =
      objGet current k' ∧
    (handelItemChange delay current (.single key value) forceChange).2.payload =
      (handelItemChange delay current (.single key value) forceChange).1 ∧
    (handelItemChange delay current (.single key value) forceChange).2.changedKey = some key ∧
    ((handelItemChange delay current (.single key value) forceChange).2.channel =
      Channel.debounced delay ↔ delay ≠ 0 ∧ forceChange = false) ∧
    ((handelItemChange delay current (.single key value) forceChange).2.channel =
      Channel.immediate ↔ delay = 0 ∨ forceChange = true) := by
  refine ⟨rfl, objGet_objSet_same current key value, objSet_mem_key current key value,
    objGet_objSet_other current key k' value h, rfl, rfl, ?_, ?_⟩
  · cases forceChange <;> by_cases hd : delay = 0 <;> simp [handelItemChange, hd]
  · cases forceChange <;> by_cases hd : delay = 0 <;> simp [handelItemChange, hd]

theorem c2_item_change_emission_witness :
    objGet (handelItemChange 5 [("a", some "x")] (.single "b" (some "y")) false).1 "a" =
      objGet [("a", some "x")] "a" ∧
    (handelItemChange 5 [("a", some "x")] (.single "b" (some "y")) false).2.channel =
      Channel.debounced 5 :=
  ⟨(c2_item_change_emission 5 [("a", some "x")] "b" (some "y") false "a"
      (by decide)).2.2.2.1,
   ((c2_item_change_emission 5 [("a", some "x")] "b" (some "y") false "a"
      (by decide)).2.2.2.2.2.2.1).mpr ⟨by decide, rfl⟩⟩

/-- C4: a duration-range change emits the new pair iff both endpoints
transform to numbers with min ≤ max; both numbers with min > max shows the
error toast and emits nothing; neither a number emits the empty list; a
mixed pair does nothing. -/
theorem c4_duration_range {β : Type} (td : Option β → Option Int) (v : List β) (a b : Int) :
    (td (v.get? 0) = some a → td (v.get? 1) = some b → a ≤ b →
      timeSpanOnChange td v = TimeSpanOutcome.emit v) ∧
    (td (v.get? 0) = some a → td (v.get? 1) = some b → b < a →
      timeSpanOnChange td v = TimeSpanOutcome.toast) ∧
    (td (v.get? 0) = none → td (v.get? 1) = none →
      timeSpanOnChange td v = TimeSpanOutcome.emit []) ∧
    (td (v.get? 0) = none → td (v.get? 1) = some b →
      timeSpanOnChange td v = TimeSpanOutcome.silent) ∧
    (td (v.get? 0) = some a → td (v.get? 1) = none →
      timeSpanOnChange td v = TimeSpanOutcome.silent) := by
  refine ⟨fun h1 h2 h3 => ?_, fun h1 h2 h3 => ?_, fun h1 h2 => ?_, fun h1 h2 => ?_,
    fun h1 h2 => ?_⟩
  · simp only [timeSpanOnChange, h1, h2]
    rw [if_pos h3]
  · simp only [timeSpanOnChange, h1, h2]
    rw [if_neg (not_le.mpr h3)]
  · simp only [timeSpanOnChange, h1, h2]
  · simp only [timeSpanOnChange, h1, h2]
  · simp only [timeSpanOnChange, h1, h2]

theorem c4_duration_range_witness :
    timeSpanOnChange (fun (o : Option Int) => o) [1, 2] = TimeSpanOutcome.emit [1, 2] ∧
    timeSpanOnChange (fun (o : Option Int) => o) [2, 1] = TimeSpanOutcome.toast ∧
    timeSpanOnChange (fun (_ : Option Unit) => (none : Option Int)) [] =
      TimeSpanOutcome.emit [] ∧
    timeSpanOnChange (fun (o : Option Int) =>
      (o.bind (fun x => if x = 2 then some 5 else none))) [1, 2] = TimeSpanOutcome.silent ∧
    timeSpanOnChange (fun (o : Option Int) =>
      (o.bind (fun x => if x = 1 then some 5 else none))) [1, 2] = TimeSpanOutcome.silent :=
  ⟨(c4_duration_range (fun o => o) [1, 2] 1 2).1 (by decide) (by decide) (by decide),
   (c4_duration_range (fun o => o) [2, 1] 2 1).2.1 (by decide) (by decide) (by decide),
   (c4_duration_range (fun _ => none) ([] : List Unit) 0 0).2.2.1 rfl rfl,
   (c4_duration_range _ [1, 2] 0 5).2.2.2.1 (by decide) (by decide),
   (c4_duration_range _ [1, 2] 5 0).2.2.2.2 (by decide) (by decide)⟩

/-- C9: the option search keeps exactly the options whose label contains
the search string case-insensitively, keeps an option with a children
field iff at least one child label matches (narrowed to the matching
children), and returns the input unchanged for the empty search string. -/
theorem c9_select_options (options : List SelOption) (filterKey : String) :
    getSelectOptions options filterKey = specSelectOptions options filterKey := by
  unfold getSelectOptions specSelectOptions
  by_cases h : filterKey = ""
  · rw [if_pos h, if_pos h]
  · rw [if_neg h, if_neg h]
    induction options with
    | nil => rfl
    | cons item rest ih =>
      rw [List.filterMap_cons]
      cases hc : item.children with
      | none =>
        simp only [getSelectOptionsGo, hc]
        by_cases hm : filterMatch item.label filterKey = true
        · rw [if_pos hm, if_pos hm, ih]
        · rw [if_neg hm, if_neg hm]
          exact ih
      | some cs =>
        simp only [getSelectOptionsGo, hc]
        by_cases hk : List.filter (fun c => filterMatch c.label filterKey) (cs.getD []) = []
        · rw [hk]
          rw [if_neg (by simp), if_pos rfl]
          exact ih
        · have hlen : (List.filter (fun c => filterMatch c.label filterKey) (cs.getD [])).length ≠ 0 :=
            fun h0 => hk (List.length_eq_zero.mp h0)
          rw [if_pos hlen, if_neg hk, ih]

/-- C10: the quick-add control invokes its save callback exactly when the
entered text is non-empty and differs from every existing option label,
and the input is cleared after every save click. -/
theorem c10_quick_save (labels : List String) (st : QuickSaveState)
    (h : st.tip = computeTip labels st.v) :
    ((qsStep labels st QSEvent.clickSave).2 = some st.v ↔ st.v ≠ "" ∧ st.v ∉ labels) ∧
    ((qsStep labels st QSEvent.clickSave).2 = none ↔ (st.v = "" ∨ st.v ∈ labels)) ∧
    (qsStep labels st QSEvent.clickSave).1.v = "" ∧
    qsInit.tip = computeTip labels qsInit.v ∧
    (∀ e : QSEvent, (qsStep labels st e).1.tip = computeTip labels (qsStep labels st e).1.v) := by
  have hiff : st.tip = "" ↔ (st.v ≠ "" ∧ st.v ∉ labels) := by
    rw [h]
    unfold computeTip
    by_cases h1 : st.v = ""
    · rw [if_pos h1]
      exact iff_of_false (by decide) (fun hc => hc.1 h1)
    · rw [if_neg h1]
      by_cases h2 : st.v ∈ labels
      · rw [if_pos h2]
        exact iff_of_false (by decide) (fun hc => hc.2 h2)
      · rw [if_neg h2]
        exact iff_of_true rfl ⟨h1, h2⟩
  have hstep : (qsStep labels st QSEvent.clickSave).2 =
      if st.tip = "" then some st.v else none := rfl
  refine ⟨?_, ?_, rfl, ?_, ?_⟩
  · rw [hstep]
    by_cases htip : st.tip = ""
    · rw [if_pos htip]
      exact iff_of_true rfl (hiff.mp htip)
    · rw [if_neg htip]
      refine iff_of_false (by simp) (fun hcon => htip (hiff.mpr hcon))
  · rw [hstep]
    by_cases htip : st.tip = ""
    · rw [if_pos htip]
      rcases hiff.mp htip with ⟨hne, hni⟩
      refine iff_of_false (by simp) ?_
      rintro (hcase | hcase)
      · exact hne hcase
      · exact hni hcase
    · rw [if_neg htip]
      refine iff_of_true rfl ?_
      by_cases h1 : st.v = ""
      · exact Or.inl h1
      · by_cases h2 : st.v ∈ labels
        · exact Or.inr h2
        · exact absurd (hiff.mpr ⟨h1, h2⟩) htip
  · rfl
  · intro e
    cases e with
    | typeInput s => rfl
    | clickSave => rfl

theorem c10_quick_save_witness :
    (qsStep ["a"] ⟨"b", ""⟩ QSEvent.clickSave).2 = some "b" ∧
    (qsStep ["a"] ⟨"b", ""⟩ QSEvent.clickSave).1.v = "" :=
  ⟨((c10_quick_save ["a"] ⟨"b", ""⟩ (by decide)).1).mpr ⟨by decide, by decide⟩,
   (c10_quick_save ["a"] ⟨"b", ""⟩ (by decide)).2.2.1⟩

/-! ### Claims settled against the select item and the clear actions -/

/-- C3 counterexample: with `firstShowLength` set to `0` and one option
(strictly more options than `firstShowLength`), the claim predicts a
truncated initial render with a 'load more' control, but the code treats
the set `0` as falsy: the full list is rendered and no control appears. -/
theorem c3_load_more_counterexample :
    (some 0 : Option Nat) ≠ none ∧
    ([⟨"a", 1, none⟩] : List SelOption).length > 0 ∧
    selInitHasMore (some 0) ([⟨"a", 1, none⟩] : List SelOption).length = false ∧
    loadMoreShown (selInitHasMore (some 0) ([⟨"a", 1, none⟩] : List SelOption).length) = false ∧
    selUseOptions (selInitHasMore (some 0) ([⟨"a", 1, none⟩] : List SelOption).length)
      (some 0) (getSelectOptions [⟨"a", 1, none⟩] "") = [⟨"a", 1, none⟩] ∧
    ([⟨"a", 1, none⟩] : List SelOption).take 0 = [] := by
  refine ⟨by decide, by decide, rfl, rfl, rfl, rfl⟩

/-- C3 (amended: `firstShowLength` set to a nonzero value): with strictly
more options than a nonzero `firstShowLength`, the dropdown initially
renders only the first `firstShowLength` options of the filtered list with
a 'load more' control, and clicking it renders the entire filtered list;
with `firstShowLength` unset or zero, or not exceeded, the full filtered
list is rendered from the start without the control — each case stated for
every option list and search string. -/
theorem c3_load_more_amended (fsl : Nat) (opts : List SelOption) (f : String) :
    (0 < fsl → opts.length > fsl →
      selInitHasMore (some fsl) opts.length = true ∧
      loadMoreShown (selInitHasMore (some fsl) opts.length) = true ∧
      selUseOptions (selInitHasMore (some fsl) opts.length) (some fsl)
        (getSelectOptions opts "") = (getSelectOptions opts "").take fsl ∧
      selUseOptions (clickLoadMore true) (some fsl) (getSelectOptions opts f) =
        getSelectOptions opts f) ∧
    (0 < fsl → opts.length ≤ fsl →
      selInitHasMore (some fsl) opts.length = false ∧
      selUseOptions (selInitHasMore (some fsl) opts.length) (some fsl)
        (getSelectOptions opts f) = getSelectOptions opts f ∧
      loadMoreShown (selInitHasMore (some fsl) opts.length) = false) ∧
    (selInitHasMore none opts.length = false ∧
      selUseOptions (selInitHasMore none opts.length) none (getSelectOptions opts f) =
        getSelectOptions opts f ∧
      loadMoreShown (selInitHasMore none opts.length) = false) ∧
    (selInitHasMore (some 0) opts.length = false ∧
      selUseOptions (selInitHasMore (some 0) opts.length) (some 0)
        (getSelectOptions opts f) = getSelectOptions opts f ∧
      loadMoreShown (selInitHasMore (some 0) opts.length) = false) := by
  refine ⟨fun hpos hgt => ?_, fun hpos hle => ?_, ⟨rfl, rfl, rfl⟩, ⟨rfl, rfl, rfl⟩⟩
  · have hne : fsl ≠ 0 := Nat.pos_iff_ne_zero.mp hpos
    have h1 : selInitHasMore (some fsl) opts.length = true := by
      show (if fsl ≠ 0 then decide (opts.length > fsl) else false) = true
      rw [if_pos hne]
      exact decide_eq_true hgt
    refine ⟨h1, by rw [loadMoreShown, h1], ?_, rfl⟩
    rw [h1]
    rfl
  · have hne : fsl ≠ 0 := Nat.pos_iff_ne_zero.mp hpos
    have h1 : selInitHasMore (some fsl) opts.length = false := by
      show (if fsl ≠ 0 then decide (opts.length > fsl) else false) = false
      rw [if_pos hne]
      exact decide_eq_false (not_lt.mpr hle)
    refine ⟨h1, ?_, by rw [loadMoreShown, h1]⟩
    rw [h1]
    rfl

theorem c3_load_more_amended_witness :
    selInitHasMore (some 1) ([⟨"a", 1, none⟩, ⟨"b", 2, none⟩] : List SelOption).length = true ∧
    selUseOptions (selInitHasMore (some 1)
        ([⟨"a", 1, none⟩, ⟨"b", 2, none⟩] : List SelOption).length) (some 1)
      (getSelectOptions [⟨"a", 1, none⟩, ⟨"b", 2, none⟩] "") =
      (getSelectOptions [⟨"a", 1, none⟩, ⟨"b", 2, none⟩] "").take 1 ∧
    selUseOptions (selInitHasMore (some 5) ([⟨"a", 1, none⟩] : List SelOption).length)
      (some 5) (getSelectOptions [⟨"a", 1, none⟩] "x") =
      getSelectOptions [⟨"a", 1, none⟩] "x" ∧
    selInitHasMore (some 0) ([⟨"c", 3, none⟩] : List SelOption).length = false ∧
    selUseOptions (selInitHasMore (some 0) ([⟨"c", 3, none⟩] : List SelOption).length)
      (some 0) (getSelectOptions [⟨"c", 3, none⟩] "c") = getSelectOptions [⟨"c", 3, none⟩] "c" :=
  ⟨((c3_load_more_amended 1 [⟨"a", 1, none⟩, ⟨"b", 2, none⟩] "").1
      (by decide) (by decide)).1,
   ((c3_load_more_amended 1 [⟨"a", 1, none⟩, ⟨"b", 2, none⟩] "").1
      (by decide) (by decide)).2.2.1,
   ((c3_load_more_amended 5 [⟨"a", 1, none⟩] "x").2.1 (by decide) (by decide)).2.1,
   (c3_load_more_amended 1 [⟨"c", 3, none⟩] "c").2.2.2.1,
   (c3_load_more_amended 1 [⟨"c", 3, none⟩] "c").2.2.2.2.1⟩

/-- C1 counterexample: the global clear-selected action of the
more-conditions dropdown does reset a required condition's value to
undefined.  The conditions list holds a single required select condition
with key `priority` and a selected value; after `handleClearSelected`
(with an absent initValue) the emitted value map has the key set to
`undefined`. -/
theorem c1_required_clear_counterexample :
    ([⟨"priority", ConditionType.select, none, true⟩] : List CFCondition).all
      (fun c => c.required) = true ∧
    objGet ([("priority", some "high")] : ValueMap String) "priority" = some "high" ∧
    (handleClearSelected 0 [⟨"priority", ConditionType.select, none, true⟩]
      ([] : ValueMap String) [("priority", some "high")]).2.payload =
      [("priority", (none : Option String))] :=
  ⟨rfl, rfl, rfl⟩

/-- C1 (amended): in single-select mode clicking the already-selected
option of a required condition emits nothing; in multi-select mode
deselecting the last selected option of a required condition emits
nothing; the per-condition 'Clear selected' link is not offered for a
required condition; but the global clear-selected action resets a
required condition's value like any other — for a key that is not an
array index of a protected condition the emitted map holds
`initValue?.[key] ?? undefined`, requiredness never being consulted. -/
theorem c1_required_never_cleared_amended {α : Type} [DecidableEq α]
    (value : List α) (cur : α) (delay : Nat) (conds : List CFCondition)
    (initValue valueMap : ValueMap α) (k : String) (vOld : Option α)
    (h1 : cur ∈ value)
    (h2 : List.filter (fun v => v ≠ cur) value = [])
    (hN : (valueMap.map Prod.fst).Nodup)
    (hmem : (k, vOld) ∈ valueMap)
    (hidx : jsArrayGetStr conds k = none) :
    onClickOptItem true true value cur = ClickEmission.silent ∧
    onClickOptItem false true value cur = ClickEmission.silent ∧
    clearSelectedLinkShown false true = false ∧
    (handleClearSelected delay conds initValue valueMap).2.payload =
      clearSelectedMap conds initValue valueMap ∧
    objGet (handleClearSelected delay conds initValue valueMap).2.payload k =
      objGet initValue k := by
  have hpayload : (handleClearSelected delay conds initValue valueMap).2.payload =
      clearSelectedMap conds initValue valueMap :=
    objMerge_self_map (clearEntry conds initValue) valueMap hN
  refine ⟨?_, ?_, rfl, hpayload, ?_⟩
  · unfold onClickOptItem
    rw [if_pos rfl, if_pos (show (true : Bool) = true ∧ cur ∈ value from ⟨rfl, h1⟩)]
  · unfold onClickOptItem
    rw [if_neg Bool.false_ne_true, if_pos h1, h2]
    rfl
  · rw [hpayload]
    unfold clearSelectedMap objGet
    rw [find?_map_entries (clearEntry conds initValue) valueMap k]
    have hsome : (List.find? (fun p => p.1 == k) valueMap).isSome :=
      List.find?_isSome.mpr ⟨(k, vOld), hmem, by simp⟩
    obtain ⟨p, hp⟩ := Option.isSome_iff_exists.mp hsome
    have hpk : p.1 = k := by
      have := List.find?_some hp
      simpa using this
    rw [hp]
    show clearEntry conds initValue p.1 p.2 = objGet initValue k
    rw [hpk]
    simp only [clearEntry, hidx]
    rfl

theorem c1_required_never_cleared_amended_witness :
    onClickOptItem true true ["x"] "x" = ClickEmission.silent ∧
    objGet (handleClearSelected 3 [⟨"priority", ConditionType.select, none, true⟩]
      ([] : ValueMap String) [("priority", some "high")]).2.payload "priority" =
      objGet ([] : ValueMap String) "priority" :=
  ⟨(c1_required_never_cleared_amended ["x"] "x" 3
      [⟨"priority", ConditionType.select, none, true⟩] [] [("priority", some "high")]
      "priority" (some "high") (by decide) (by decide) (by decide) (by decide)
      (by decide)).1,
   (c1_required_never_cleared_amended ["x"] "x" 3
      [⟨"priority", ConditionType.select, none, true⟩] [] [("priority", some "high")]
      "priority" (some "high") (by decide) (by decide) (by decide) (by decide)
      (by decide)).2.2.2.2⟩

end ErdaUI
